import Mathlib

/-!
Shallow embedding of the process-tree termination subsystem in
`src/main/utils/processUtils.ts` (functions `killProcessTree` and
`killProcessTreeAsync`).

The external world (the OS process table, `spawnSync`, `process.kill`,
the `pidtree` library, and the handle's own `kill` method) is modeled by
an environment `Env` of pure oracles.  Each entry point is embedded as a
function producing a trace of externally observable events (`Event`)
together with a result `Res`:

* `Res.ok`    — the call returned normally;
* `Res.threw` — an exception escaped (this is what a `try`/`catch` in the
  source absorbs; `attempt` is that combinator);
* `Res.spin`  — the recursion exhausted its fuel, modeling non-termination
  of the recursive sweep (the source has unbounded recursion; the fuel
  parameter makes the embedding total).

Every `try { … } catch { … }` of the source is one `attempt`; statement
sequencing is `andThen`, which skips the continuation when the first part
threw or spun, exactly as control flow does.
-/

namespace ProcessUtils

/-- Signals are plain strings (`NodeJS.Signals`); the source's default is
`"SIGKILL"`. -/
abbrev Sig := String

/-- Externally observable events of one call:
`signal p s` is an attempted `process.kill(p, s)`;
`spawn cmd args` is a `spawnSync(cmd, args)`;
`directKill s` is an attempted `target.kill(s)` on the handle itself;
`enumerate p` is one `pidtree(p)` request. -/
inductive Event where
  | signal (pid : Nat) (sig : Sig)
  | spawn (cmd : String) (args : List String)
  | directKill (sig : Sig)
  | enumerate (pid : Nat)
deriving DecidableEq, Repr

/-- Outcome of a computation: returned, raised, or ran out of fuel. -/
inductive Res where
  | ok
  | threw
  | spin
deriving DecidableEq, Repr

/-- A computation: the trace of events it emitted and how it ended. -/
abbrev M := List Event × Res

/-- The empty computation (no events, returns normally). -/
def pure0 : M := ([], Res.ok)

/-- Sequencing: run `m`; if it returned normally, run the continuation and
append its events, otherwise stop (an exception or divergence skips the
rest of the block). -/
def andThen (m : M) (k : Unit → M) : M :=
  match m with
  | (t, Res.ok) => ((t ++ (k ()).1 : List Event), (k ()).2)
  | (t, r) => (t, r)

/-- The `try { … } catch { /* ignore */ }` combinator of the source:
an exception is absorbed, a normal return or divergence is unchanged. -/
def attempt (m : M) : M :=
  match m with
  | (t, Res.threw) => (t, Res.ok)
  | m => m

/-- Outcome of `spawnSync('pgrep', ['-P', pid])`:
the call itself threw, produced falsy stdout, or produced a parsed child
pid list (the source's `trim().split('\n').filter(Boolean).map(Number)`). -/
inductive PgrepOut where
  | throws
  | noOutput
  | output (kids : List Nat)
deriving DecidableEq, Repr

/-- The external world: platform flag and the behavior of every fallible
primitive the subsystem calls. -/
structure Env where
  /-- `process.platform === 'win32'` -/
  win : Bool
  /-- whether `spawnSync('taskkill', …)` throws for this pid -/
  taskkillThrows : Nat → Bool
  /-- behavior of `spawnSync('pgrep', ['-P', pid])` -/
  pgrep : Nat → PgrepOut
  /-- whether `process.kill(pid, sig)` throws (e.g. ESRCH) -/
  killThrows : Nat → Bool
  /-- behavior of `pidtree(pid)`: error, or the flat descendant list -/
  pidtree : Nat → Except Unit (List Nat)
  /-- whether the handle's own `kill(sig)` throws -/
  handleKillThrows : Bool

/-- The caller's `target`: a bare pid, or a handle (`ChildProcess` /
`ProcessLike`) exposing `kill` and an optional `pid`. -/
inductive Target where
  | pid (n : Nat)
  | handle (pidOpt : Option Nat)
deriving DecidableEq, Repr

/-- The pid-extraction prologue shared by both entry points
(`typeof target === 'number' ? target : 'pid' in target ? target.pid :
undefined`). -/
def extractPid : Target → Option Nat
  | Target.pid n => some n
  | Target.handle p => p

/-- The `taskkill /pid <pid> /t /f` spawn event of the Windows branch. -/
def taskkillCmd (p : Nat) : Event :=
  Event.spawn "taskkill" (["/pid", toString p] ++ ["/t", "/f"])

/-- `spawnSync('taskkill', ['/pid', pid, '/t', '/f'])`. -/
def taskkillM (env : Env) (p : Nat) : M :=
  ([taskkillCmd p], if env.taskkillThrows p then Res.threw else Res.ok)

/-- The `pgrep -P <pid>` spawn event. -/
def pgrepEv (p : Nat) : Event := Event.spawn "pgrep" ["-P", toString p]

/-- `process.kill(p, sig)`: emits the attempt, throws per the env. -/
def sigSend (env : Env) (p : Nat) (sig : Sig) : M :=
  ([Event.signal p sig], if env.killThrows p then Res.threw else Res.ok)

/-- `target.kill(sig)` on the handle itself. -/
def directKillM (env : Env) (sig : Sig) : M :=
  ([Event.directKill sig], if env.handleKillThrows then Res.threw else Res.ok)

/-- The no-pid fallback shared by both entry points: a bare number target
has no `kill` method, so nothing happens; a handle gets
`try { target.kill(signal) } catch { /* ignore */ }`. -/
def fallback (env : Env) (target : Target) (sig : Sig) : M :=
  match target with
  | Target.pid _ => pure0
  | Target.handle _ => attempt (directKillM env sig)

/-- `killProcessTree(target, signal)` — the synchronous terminator.
The first argument after `sig` is recursion fuel: the source recurses
into each pgrep child with the same function, so the embedding descends
with `fuel` and reports `Res.spin` when the fuel runs out. -/
def killProcessTree (env : Env) (sig : Sig) : Nat → Target → M
  | 0, _ => ([], Res.spin)
  | fuel + 1, target =>
    match extractPid target with
    | none => fallback env target sig
    | some p =>
      if p = 0 then fallback env target sig
      else
        attempt
          (if env.win then taskkillM env p
           else
             andThen
               (attempt
                 (match env.pgrep p with
                  | PgrepOut.throws => ([pgrepEv p], Res.threw)
                  | PgrepOut.noOutput => ([pgrepEv p], Res.ok)
                  | PgrepOut.output kids =>
                    andThen ([pgrepEv p], Res.ok) (fun _ =>
                      kids.foldl
                        (fun acc c =>
                          andThen acc (fun _ =>
                            killProcessTree env sig fuel (Target.pid c)))
                        pure0)))
               (fun _ => attempt (sigSend env p sig)))

/-- `killProcessTreeAsync(target, signal)` — the asynchronous terminator:
one `pidtree` enumeration, each child of the reversed list signaled under
its own `try`, then the root signaled. -/
def killProcessTreeAsync (env : Env) (sig : Sig) (target : Target) : M :=
  match extractPid target with
  | none => fallback env target sig
  | some p =>
    if p = 0 then fallback env target sig
    else
      attempt
        (if env.win then taskkillM env p
         else
           andThen
             (attempt
               (match env.pidtree p with
                | Except.error _ => ([Event.enumerate p], Res.threw)
                | Except.ok _ => ([Event.enumerate p], Res.ok)))
             (fun _ =>
               let childPids :=
                 match env.pidtree p with
                 | Except.error _ => []
                 | Except.ok l => l
               andThen
                 (childPids.reverse.foldl
                   (fun acc c =>
                     andThen acc (fun _ => attempt (sigSend env c sig)))
                   pure0)
                 (fun _ => attempt (sigSend env p sig))))

/-- The pids of the kill attempts of a trace, in order. -/
def signalsOf (t : List Event) : List Nat :=
  t.filterMap (fun e =>
    match e with
    | Event.signal p _ => some p
    | _ => none)

/-- The pids whose signal was actually delivered (the kill did not throw). -/
def delivered (env : Env) (t : List Event) : List Nat :=
  t.filterMap (fun e =>
    match e with
    | Event.signal p _ => if env.killThrows p then none else some p
    | _ => none)

/-! ### Helper lemmas about the combinators -/

theorem attempt_ne_threw (m : M) : (attempt m).2 ≠ Res.threw := by
  rcases m with ⟨t, r⟩
  cases r <;> simp [attempt]

theorem attempt_snd_ok (m : M) (h : m.2 ≠ Res.spin) : (attempt m).2 = Res.ok := by
  rcases m with ⟨t, r⟩
  cases r <;> simp_all [attempt]

theorem attempt_fst (m : M) : (attempt m).1 = m.1 := by
  rcases m with ⟨t, r⟩
  cases r <;> simp [attempt]

theorem attempt_of_ok (m : M) (h : m.2 = Res.ok) : attempt m = m := by
  rcases m with ⟨t, r⟩
  cases r <;> simp_all [attempt]

theorem andThen_of_ok (m : M) (k : Unit → M) (h : m.2 = Res.ok) :
    andThen m k = (m.1 ++ (k ()).1, (k ()).2) := by
  rcases m with ⟨t, r⟩
  cases r <;> simp_all [andThen]

theorem attempt_pair_ok (t : List Event) : attempt (t, Res.ok) = (t, Res.ok) := rfl

theorem attempt_pair_threw (t : List Event) : attempt (t, Res.threw) = (t, Res.ok) := rfl

theorem andThen_pair_ok (t : List Event) (k : Unit → M) :
    andThen (t, Res.ok) k = (t ++ (k ()).1, (k ()).2) := rfl

theorem andThen_pair_threw (t : List Event) (k : Unit → M) :
    andThen (t, Res.threw) k = (t, Res.threw) := rfl

theorem attempt_sigSend (env : Env) (p : Nat) (sig : Sig) :
    attempt (sigSend env p sig) = ([Event.signal p sig], Res.ok) := by
  unfold sigSend
  cases h : env.killThrows p <;> simp [attempt]

theorem attempt_taskkill (env : Env) (p : Nat) :
    attempt (taskkillM env p) = ([taskkillCmd p], Res.ok) := by
  unfold taskkillM
  cases h : env.taskkillThrows p <;> simp [attempt]

theorem attempt_directKill (env : Env) (sig : Sig) :
    attempt (directKillM env sig) = ([Event.directKill sig], Res.ok) := by
  unfold directKillM
  cases h : env.handleKillThrows <;> simp [attempt]

/-! ### Unfolding lemmas for the entry points -/

theorem kpt_handle_none (env : Env) (sig : Sig) (fuel : Nat) :
    killProcessTree env sig (fuel + 1) (Target.handle none) =
      ([Event.directKill sig], Res.ok) := by
  simp [killProcessTree, extractPid, fallback, attempt_directKill]

theorem kpt_pid_zero (env : Env) (sig : Sig) (fuel : Nat) :
    killProcessTree env sig (fuel + 1) (Target.pid 0) = ([], Res.ok) := by
  simp [killProcessTree, extractPid, fallback, pure0]

theorem kpt_handle_zero (env : Env) (sig : Sig) (fuel : Nat) :
    killProcessTree env sig (fuel + 1) (Target.handle (some 0)) =
      ([Event.directKill sig], Res.ok) := by
  simp [killProcessTree, extractPid, fallback, attempt_directKill]

theorem kptAsync_handle_none (env : Env) (sig : Sig) :
    killProcessTreeAsync env sig (Target.handle none) =
      ([Event.directKill sig], Res.ok) := by
  simp [killProcessTreeAsync, extractPid, fallback, attempt_directKill]

theorem kptAsync_pid_zero (env : Env) (sig : Sig) :
    killProcessTreeAsync env sig (Target.pid 0) = ([], Res.ok) := by
  simp [killProcessTreeAsync, extractPid, fallback, pure0]

theorem kptAsync_handle_zero (env : Env) (sig : Sig) :
    killProcessTreeAsync env sig (Target.handle (some 0)) =
      ([Event.directKill sig], Res.ok) := by
  simp [killProcessTreeAsync, extractPid, fallback, attempt_directKill]

/-- On the non-Windows branch, a nonzero pid whose pgrep gives child list
`kids`: if the fold of recursive child calls ends ok with trace `t`, the
whole node emits the pgrep spawn, then `t`, then its own kill attempt. -/
theorem kpt_node (env : Env) (sig : Sig) (fuel : Nat) (p : Nat) (kids : List Nat)
    (t : List Event)
    (hwin : env.win = false) (hp : p ≠ 0)
    (hk : env.pgrep p = PgrepOut.output kids)
    (hfold :
      kids.foldl
        (fun acc c => andThen acc (fun _ => killProcessTree env sig fuel (Target.pid c)))
        pure0 = (t, Res.ok)) :
    killProcessTree env sig (fuel + 1) (Target.pid p) =
      (pgrepEv p :: (t ++ [Event.signal p sig]), Res.ok) := by
  simp [killProcessTree, extractPid, hwin, hp, hk, hfold, attempt_sigSend,
    attempt_pair_ok, andThen_pair_ok]

/-- A leaf on the non-Windows branch: pgrep produced no stdout, so the node
just spawns pgrep and signals itself. -/
theorem kpt_leaf (env : Env) (sig : Sig) (fuel : Nat) (p : Nat)
    (hwin : env.win = false) (hp : p ≠ 0)
    (hk : env.pgrep p = PgrepOut.noOutput) :
    killProcessTree env sig (fuel + 1) (Target.pid p) =
      ([pgrepEv p, Event.signal p sig], Res.ok) := by
  simp [killProcessTree, extractPid, hwin, hp, hk, attempt_sigSend,
    attempt_pair_ok, andThen_pair_ok]

/-- A node whose pgrep call throws degrades to leaf behavior: the failure is
caught and the node still signals itself. -/
theorem kpt_pgrep_throws (env : Env) (sig : Sig) (fuel : Nat) (p : Nat)
    (hwin : env.win = false) (hp : p ≠ 0)
    (hk : env.pgrep p = PgrepOut.throws) :
    killProcessTree env sig (fuel + 1) (Target.pid p) =
      ([pgrepEv p, Event.signal p sig], Res.ok) := by
  simp [killProcessTree, extractPid, hwin, hp, hk, attempt_sigSend,
    attempt_pair_ok, attempt_pair_threw, andThen_pair_ok, andThen_pair_threw]

/-- The Windows branch of the synchronous terminator: one taskkill spawn,
failure absorbed. -/
theorem kpt_win (env : Env) (sig : Sig) (fuel : Nat) (p : Nat)
    (hwin : env.win = true) (hp : p ≠ 0) :
    killProcessTree env sig (fuel + 1) (Target.pid p) =
      ([taskkillCmd p], Res.ok) := by
  simp [killProcessTree, extractPid, hwin, hp, attempt_taskkill]

/-- The Windows branch of the asynchronous terminator. -/
theorem kptAsync_win (env : Env) (sig : Sig) (p : Nat)
    (hwin : env.win = true) (hp : p ≠ 0) :
    killProcessTreeAsync env sig (Target.pid p) = ([taskkillCmd p], Res.ok) := by
  simp [killProcessTreeAsync, extractPid, hwin, hp, attempt_taskkill]

/-- The fold of per-child `try { process.kill(c, sig) } catch {}` of the
asynchronous path: starting from an ok accumulator, it appends one signal
attempt per child and stays ok. -/
theorem foldl_attempt_sig (env : Env) (sig : Sig) (l : List Nat) (t0 : List Event) :
    l.foldl (fun acc c => andThen acc (fun _ => attempt (sigSend env c sig)))
        (t0, Res.ok) =
      (t0 ++ l.map (fun c => Event.signal c sig), Res.ok) := by
  induction l generalizing t0 with
  | nil => simp
  | cons c rest ih =>
    rw [List.foldl_cons, andThen_pair_ok, attempt_sigSend]
    simpa using ih (t0 ++ [Event.signal c sig])

/-- The non-Windows asynchronous sweep when enumeration succeeds: one
pidtree request, the reversed child list signaled one by one, then the
root. -/
theorem kptAsync_unix (env : Env) (sig : Sig) (p : Nat) (kids : List Nat)
    (hwin : env.win = false) (hp : p ≠ 0)
    (hpt : env.pidtree p = Except.ok kids) :
    killProcessTreeAsync env sig (Target.pid p) =
      (Event.enumerate p ::
        (kids.reverse.map (fun c => Event.signal c sig) ++ [Event.signal p sig]),
       Res.ok) := by
  simp only [killProcessTreeAsync, extractPid, hwin, hp, hpt, Bool.false_eq_true,
    if_false, if_neg hp, attempt_pair_ok, andThen_pair_ok, pure0]
  rw [foldl_attempt_sig env sig kids.reverse ([] : List Event)]
  rw [andThen_pair_ok, attempt_sigSend]
  simp [attempt_pair_ok]

/-- The non-Windows asynchronous sweep when enumeration fails: the error is
absorbed, the child list short-circuits to empty, and the root is still
signaled. -/
theorem kptAsync_unix_err (env : Env) (sig : Sig) (p : Nat)
    (hwin : env.win = false) (hp : p ≠ 0)
    (hpt : env.pidtree p = Except.error ()) :
    killProcessTreeAsync env sig (Target.pid p) =
      ([Event.enumerate p, Event.signal p sig], Res.ok) := by
  simp [killProcessTreeAsync, extractPid, hwin, hp, hpt, attempt_pair_ok,
    attempt_pair_threw, andThen_pair_ok, attempt_sigSend, pure0]

/-- A handle exposing pid `n ≠ 0` is processed exactly like the bare pid
`n` (the body after extraction never looks at the target again). -/
theorem kpt_handle_some_eq_pid (env : Env) (sig : Sig) (fuel n : Nat) (hn : n ≠ 0) :
    killProcessTree env sig (fuel + 1) (Target.handle (some n)) =
      killProcessTree env sig (fuel + 1) (Target.pid n) := by
  simp only [killProcessTree, extractPid, if_neg hn]

/-- Asynchronous version of `kpt_handle_some_eq_pid`. -/
theorem kptAsync_handle_some_eq_pid (env : Env) (sig : Sig) (n : Nat) (hn : n ≠ 0) :
    killProcessTreeAsync env sig (Target.handle (some n)) =
      killProcessTreeAsync env sig (Target.pid n) := by
  simp only [killProcessTreeAsync, extractPid, if_neg hn]

/-- The asynchronous terminator on a nonzero bare pid always returns ok. -/
theorem kptAsync_pid_snd_ok (env : Env) (sig : Sig) (n : Nat) (hn : n ≠ 0) :
    (killProcessTreeAsync env sig (Target.pid n)).2 = Res.ok := by
  cases hwin : env.win with
  | false =>
    cases hpt : env.pidtree n with
    | error u => cases u; rw [kptAsync_unix_err env sig n hwin hn hpt]
    | ok kids => rw [kptAsync_unix env sig n kids hwin hn hpt]
  | true => rw [kptAsync_win env sig n hwin hn]

/-! ### The claims -/

/-- Claim C2: neither entry point ever surfaces an error to the caller —
for every environment (process-table behavior), signal and target, the
synchronous terminator's outcome is `ok` or `spin` (fuel exhaustion models
unbounded recursion, not an exception), never `threw`, and the
asynchronous terminator always resolves with `ok`. -/
theorem C2_entry_points_never_raise :
    (∀ (env : Env) (sig : Sig) (fuel : Nat) (target : Target),
      (killProcessTree env sig fuel target).2 = Res.ok ∨
      (killProcessTree env sig fuel target).2 = Res.spin) ∧
    (∀ (env : Env) (sig : Sig) (target : Target),
      (killProcessTreeAsync env sig target).2 = Res.ok) := by
  constructor
  · intro env sig fuel target
    match fuel with
    | 0 => right; rfl
    | fuel + 1 =>
      have hres : ∀ m : M, (attempt m).2 = Res.ok ∨ (attempt m).2 = Res.spin := by
        intro m
        rcases m with ⟨t, r⟩
        cases r <;> simp [attempt]
      cases target with
      | pid n =>
        by_cases hn : n = 0
        · subst hn; rw [kpt_pid_zero]; left; rfl
        · simp only [killProcessTree, extractPid, if_neg hn]
          exact hres _
      | handle po =>
        match po with
        | none => rw [kpt_handle_none]; left; rfl
        | some n =>
          by_cases hn : n = 0
          · subst hn; rw [kpt_handle_zero]; left; rfl
          · simp only [killProcessTree, extractPid, if_neg hn]
            exact hres _
  · intro env sig target
    cases target with
    | pid n =>
      by_cases hn : n = 0
      · subst hn; rw [kptAsync_pid_zero]
      · exact kptAsync_pid_snd_ok env sig n hn
    | handle po =>
      match po with
      | none => rw [kptAsync_handle_none]
      | some n =>
        by_cases hn : n = 0
        · subst hn; rw [kptAsync_handle_zero]
        · rw [kptAsync_handle_some_eq_pid env sig n hn]
          exact kptAsync_pid_snd_ok env sig n hn

/-- Claim C4: the process reference normalizer (`extractPid`, the shared
pid-extraction prologue) is pure and total: a bare integer is returned
unchanged, a handle yields its embedded identifier exactly when present. -/
theorem C4_normalizer_pure_total :
    (∀ n : Nat, extractPid (Target.pid n) = some n) ∧
    (∀ po : Option Nat, extractPid (Target.handle po) = po) :=
  ⟨fun _ => rfl, fun _ => rfl⟩

/-- Claim C5: a reference with no numeric identifier but a kill capability
makes each entry point invoke that capability exactly once with the
requested signal, absorb any failure, perform no enumeration or other
signaling, and return: the whole trace is the single `directKill sig`
event and the result is ok, for every environment (in particular whether
or not the capability throws). -/
theorem C5_fallback_invoked_once (env : Env) (sig : Sig) (fuel : Nat) :
    killProcessTree env sig (fuel + 1) (Target.handle none) =
      ([Event.directKill sig], Res.ok) ∧
    killProcessTreeAsync env sig (Target.handle none) =
      ([Event.directKill sig], Res.ok) :=
  ⟨kpt_handle_none env sig fuel, kptAsync_handle_none env sig⟩

/-- Claim C9 (implicit): pid 0 is treated as absent by the falsiness test
`if (!pid)`: a bare 0 makes both entry points return with an empty trace
(no signal, no spawn, no capability call), and a handle whose pid is 0 is
routed to the direct-kill fallback instead of tree termination. -/
theorem C9_zero_pid_falsy (env : Env) (sig : Sig) (fuel : Nat) :
    killProcessTree env sig (fuel + 1) (Target.pid 0) = ([], Res.ok) ∧
    killProcessTreeAsync env sig (Target.pid 0) = ([], Res.ok) ∧
    killProcessTree env sig (fuel + 1) (Target.handle (some 0)) =
      ([Event.directKill sig], Res.ok) ∧
    killProcessTreeAsync env sig (Target.handle (some 0)) =
      ([Event.directKill sig], Res.ok) :=
  ⟨kpt_pid_zero env sig fuel, kptAsync_pid_zero env sig,
   kpt_handle_zero env sig fuel, kptAsync_handle_zero env sig⟩

/-- Claim C1: on the Unix branch the synchronous terminator signals a tree
root→{A,B}, A→{C} in true post-order: the kill attempts are exactly
C, A, B, root — so C precedes A, both A and B precede the root, the root
is last, and no signal reaches the root before C. -/
theorem C1_sync_postorder (env : Env) (sig : Sig) (fuel r a b c : Nat)
    (hwin : env.win = false)
    (hr : r ≠ 0) (ha : a ≠ 0) (hb : b ≠ 0) (hc : c ≠ 0)
    (hkr : env.pgrep r = PgrepOut.output [a, b])
    (hka : env.pgrep a = PgrepOut.output [c])
    (hkb : env.pgrep b = PgrepOut.noOutput)
    (hkc : env.pgrep c = PgrepOut.noOutput) :
    signalsOf (killProcessTree env sig (fuel + 3) (Target.pid r)).1 = [c, a, b, r] := by
  have hC := kpt_leaf env sig fuel c hwin hc hkc
  have hB := kpt_leaf env sig (fuel + 1) b hwin hb hkb
  have hfoldA :
      [c].foldl
        (fun acc k =>
          andThen acc (fun _ => killProcessTree env sig (fuel + 1) (Target.pid k)))
        pure0 = ([pgrepEv c, Event.signal c sig], Res.ok) := by
    simp only [List.foldl_cons, List.foldl_nil, pure0, andThen_pair_ok, hC]
    simp
  have hA := kpt_node env sig (fuel + 1) a [c] _ hwin ha hka hfoldA
  have hfoldR :
      [a, b].foldl
        (fun acc k =>
          andThen acc (fun _ => killProcessTree env sig (fuel + 2) (Target.pid k)))
        pure0 =
        ((pgrepEv a :: ([pgrepEv c, Event.signal c sig] ++ [Event.signal a sig])) ++
          [pgrepEv b, Event.signal b sig], Res.ok) := by
    simp only [List.foldl_cons, List.foldl_nil, pure0, andThen_pair_ok, hA, hB]
    simp
  have hR := kpt_node env sig (fuel + 2) r [a, b] _ hwin hr hkr hfoldR
  rw [show fuel + 3 = (fuel + 2) + 1 from rfl, hR]
  simp [signalsOf, pgrepEv]

/-- Concrete environment realizing the C1 tree 1→{2,3}, 2→{4} on Unix. -/
def treeEnv : Env where
  win := false
  taskkillThrows := fun _ => false
  pgrep := fun p =>
    if p = 1 then PgrepOut.output [2, 3]
    else if p = 2 then PgrepOut.output [4]
    else PgrepOut.noOutput
  killThrows := fun _ => false
  pidtree := fun _ => Except.ok []
  handleKillThrows := false

/-- Witness for C1: on the concrete tree 1→{2,3}, 2→{4} the synchronous
sweep's kill attempts are exactly [4, 2, 3, 1]. -/
theorem C1_sync_postorder_witness :
    signalsOf (killProcessTree treeEnv "SIGKILL" 3 (Target.pid 1)).1 = [4, 2, 3, 1] :=
  C1_sync_postorder treeEnv "SIGKILL" 0 1 2 3 4 rfl
    (by decide) (by decide) (by decide) (by decide)
    (by decide) (by decide) (by decide) (by decide)

/-- Claim C6: a node whose child discovery fails is still signaled and the
rest of the tree is unaffected — for a tree root→{A,B} whose pgrep on A
throws, the sync sweep still signals A (leaf behavior), B, then the root;
and when pidtree fails, the async sweep short-circuits to an empty
descendant list and still signals the root, returning ok. -/
theorem C6_discovery_failure_degrades (env : Env) (sig : Sig) (fuel r a b q : Nat)
    (hwin : env.win = false)
    (hr : r ≠ 0) (ha : a ≠ 0) (hb : b ≠ 0) (hq : q ≠ 0)
    (hkr : env.pgrep r = PgrepOut.output [a, b])
    (hka : env.pgrep a = PgrepOut.throws)
    (hkb : env.pgrep b = PgrepOut.noOutput)
    (hpt : env.pidtree q = Except.error ()) :
    signalsOf (killProcessTree env sig (fuel + 2) (Target.pid r)).1 = [a, b, r] ∧
    killProcessTreeAsync env sig (Target.pid q) =
      ([Event.enumerate q, Event.signal q sig], Res.ok) := by
  constructor
  · have hA := kpt_pgrep_throws env sig fuel a hwin ha hka
    have hB := kpt_leaf env sig fuel b hwin hb hkb
    have hfoldR :
        [a, b].foldl
          (fun acc k =>
            andThen acc (fun _ => killProcessTree env sig (fuel + 1) (Target.pid k)))
          pure0 =
          ([pgrepEv a, Event.signal a sig] ++ [pgrepEv b, Event.signal b sig],
           Res.ok) := by
      simp only [List.foldl_cons, List.foldl_nil, pure0, andThen_pair_ok, hA, hB]
      simp
    have hR := kpt_node env sig (fuel + 1) r [a, b] _ hwin hr hkr hfoldR
    rw [show fuel + 2 = (fuel + 1) + 1 from rfl, hR]
    simp [signalsOf, pgrepEv]
  · exact kptAsync_unix_err env sig q hwin hq hpt

/-- Concrete environment for the C6 witness: tree 1→{2,3}, discovery on 2
throws, and pidtree on 7 fails. -/
def failEnv : Env where
  win := false
  taskkillThrows := fun _ => false
  pgrep := fun p =>
    if p = 1 then PgrepOut.output [2, 3]
    else if p = 2 then PgrepOut.throws
    else PgrepOut.noOutput
  killThrows := fun _ => false
  pidtree := fun _ => Except.error ()
  handleKillThrows := false

/-- Witness for C6 at the concrete failing environment. -/
theorem C6_discovery_failure_degrades_witness :
    signalsOf (killProcessTree failEnv "SIGKILL" 2 (Target.pid 1)).1 = [2, 3, 1] ∧
    killProcessTreeAsync failEnv "SIGKILL" (Target.pid 7) =
      ([Event.enumerate 7, Event.signal 7 "SIGKILL"], Res.ok) :=
  C6_discovery_failure_degrades failEnv "SIGKILL" 0 1 2 3 7 rfl
    (by decide) (by decide) (by decide) (by decide)
    (by decide) (by decide) (by decide) rfl

/-- Claim C7: two successive synchronous calls on the same now-dead
reference (pgrep finds nothing, every kill throws ESRCH) return ok, each
emitting only its own pgrep attempt and failed kill attempt, and the
combined run delivers no signal at all — the second call is an effective
no-op and still does not raise. -/
theorem C7_dead_reference_idempotent (env : Env) (sig : Sig) (fuel p : Nat)
    (hwin : env.win = false) (hp : p ≠ 0)
    (hk : env.pgrep p = PgrepOut.noOutput)
    (hkill : env.killThrows p = true) :
    andThen (killProcessTree env sig (fuel + 1) (Target.pid p))
        (fun _ => killProcessTree env sig (fuel + 1) (Target.pid p)) =
      ([pgrepEv p, Event.signal p sig, pgrepEv p, Event.signal p sig], Res.ok) ∧
    delivered env
        (andThen (killProcessTree env sig (fuel + 1) (Target.pid p))
          (fun _ => killProcessTree env sig (fuel + 1) (Target.pid p))).1 = [] := by
  have h1 := kpt_leaf env sig fuel p hwin hp hk
  rw [h1, andThen_pair_ok]
  refine ⟨by simp, ?_⟩
  simp [delivered, pgrepEv, hkill]

/-- Concrete dead-process environment for the C7 witness. -/
def deadEnv : Env where
  win := false
  taskkillThrows := fun _ => false
  pgrep := fun _ => PgrepOut.noOutput
  killThrows := fun _ => true
  pidtree := fun _ => Except.error ()
  handleKillThrows := false

/-- Witness for C7 at the concrete dead environment. -/
theorem C7_dead_reference_idempotent_witness :
    andThen (killProcessTree deadEnv "SIGKILL" 1 (Target.pid 9))
        (fun _ => killProcessTree deadEnv "SIGKILL" 1 (Target.pid 9)) =
      ([pgrepEv 9, Event.signal 9 "SIGKILL", pgrepEv 9, Event.signal 9 "SIGKILL"],
       Res.ok) ∧
    delivered deadEnv
        (andThen (killProcessTree deadEnv "SIGKILL" 1 (Target.pid 9))
          (fun _ => killProcessTree deadEnv "SIGKILL" 1 (Target.pid 9))).1 = [] :=
  C7_dead_reference_idempotent deadEnv "SIGKILL" 0 9 rfl (by decide) rfl rfl

/-- Claim C10 (implicit): on the Windows branch, for every target that
yields a nonzero pid, both entry points are independent of the signal
argument: every run emits exactly the one external command
`taskkill /pid <pid> /t /f` and returns ok, whatever signal was passed. -/
theorem C10_windows_ignores_signal (env : Env) (target : Target) (p fuel : Nat)
    (hwin : env.win = true) (hext : extractPid target = some p) (hp : p ≠ 0) :
    ∀ sig : Sig,
      killProcessTree env sig (fuel + 1) target = ([taskkillCmd p], Res.ok) ∧
      killProcessTreeAsync env sig target = ([taskkillCmd p], Res.ok) := by
  intro sig
  constructor
  · simp only [killProcessTree, hext, if_neg hp, hwin, if_true, attempt_taskkill]
  · simp only [killProcessTreeAsync, hext, if_neg hp, hwin, if_true, attempt_taskkill]

/-- Concrete Windows environment for the C10 witness. -/
def winEnv : Env where
  win := true
  taskkillThrows := fun _ => false
  pgrep := fun _ => PgrepOut.noOutput
  killThrows := fun _ => false
  pidtree := fun _ => Except.ok []
  handleKillThrows := false

/-- Witness for C10: with a soft signal substituted, the Windows branch
still runs exactly `taskkill /pid 7 /t /f`. -/
theorem C10_windows_ignores_signal_witness :
    killProcessTree winEnv "SIGTERM" 1 (Target.pid 7) = ([taskkillCmd 7], Res.ok) ∧
    killProcessTreeAsync winEnv "SIGTERM" (Target.pid 7) =
      ([taskkillCmd 7], Res.ok) :=
  C10_windows_ignores_signal winEnv (Target.pid 7) 7 0 rfl rfl (by decide) "SIGTERM"

theorem signalsOf_cons_enum (p : Nat) (t : List Event) :
    signalsOf (Event.enumerate p :: t) = signalsOf t := rfl

theorem signalsOf_single_signal (p : Nat) (sig : Sig) :
    signalsOf [Event.signal p sig] = [p] := rfl

theorem signalsOf_append (s t : List Event) :
    signalsOf (s ++ t) = signalsOf s ++ signalsOf t := by
  simp [signalsOf]

theorem signalsOf_map_signal (l : List Nat) (sig : Sig) :
    signalsOf (l.map (fun c => Event.signal c sig)) = l := by
  induction l with
  | nil => rfl
  | cons c rest ih => simpa [signalsOf] using ih

/-- Claim C3: on the Unix branch the asynchronous terminator requests one
flat descendant list from the enumerator, signals that list in reverse of
the order returned, and signals the root identifier last: its whole trace
is the single `pidtree` request, the reversed list's kill attempts, then
the root's kill attempt, so the signaled pids are `kids.reverse ++ [p]`.
(If the returned list itself listed the root first, the reversed sweep
would reach the root's own kill attempt last, preceded by the deeper
entries in reverse, with the root also hit once inside the reversed
list.) -/
theorem C3_async_reverse_then_root (env : Env) (sig : Sig) (p : Nat)
    (kids : List Nat)
    (hwin : env.win = false) (hp : p ≠ 0)
    (hpt : env.pidtree p = Except.ok kids) :
    killProcessTreeAsync env sig (Target.pid p) =
      (Event.enumerate p ::
        (kids.reverse.map (fun c => Event.signal c sig) ++ [Event.signal p sig]),
       Res.ok) ∧
    signalsOf (killProcessTreeAsync env sig (Target.pid p)).1 =
      kids.reverse ++ [p] := by
  have h := kptAsync_unix env sig p kids hwin hp hpt
  refine ⟨h, ?_⟩
  rw [h]
  show signalsOf
      (Event.enumerate p ::
        (kids.reverse.map (fun c => Event.signal c sig) ++ [Event.signal p sig])) = _
  rw [signalsOf_cons_enum, signalsOf_append, signalsOf_map_signal,
    signalsOf_single_signal]

/-- Concrete Unix environment whose enumerator returns [11, 12, 13]
(parent-first) for root 10. -/
def flatEnv : Env where
  win := false
  taskkillThrows := fun _ => false
  pgrep := fun _ => PgrepOut.noOutput
  killThrows := fun _ => false
  pidtree := fun p => if p = 10 then Except.ok [11, 12, 13] else Except.error ()
  handleKillThrows := false

/-- Witness for C3: with descendant list [11, 12, 13] the async sweep
signals 13, 12, 11, then the root 10, exactly in that order. -/
theorem C3_async_reverse_then_root_witness :
    killProcessTreeAsync flatEnv "SIGKILL" (Target.pid 10) =
      (Event.enumerate 10 ::
        ([13, 12, 11].map (fun c => Event.signal c "SIGKILL") ++
          [Event.signal 10 "SIGKILL"]),
       Res.ok) ∧
    signalsOf (killProcessTreeAsync flatEnv "SIGKILL" (Target.pid 10)).1 =
      [13, 12, 11, 10] :=
  C3_async_reverse_then_root flatEnv "SIGKILL" 10 [11, 12, 13] rfl (by decide) rfl

/-- The fold of recursive child calls ends ok as soon as every child call
does, for some concatenated trace. -/
theorem foldl_children_ok (f : Nat → M) (l : List Nat) (t0 : List Event)
    (h : ∀ c ∈ l, (f c).2 = Res.ok) :
    ∃ t, l.foldl (fun acc c => andThen acc (fun _ => f c)) (t0, Res.ok) =
      (t, Res.ok) := by
  induction l generalizing t0 with
  | nil => exact ⟨t0, rfl⟩
  | cons c rest ih =>
    rw [List.foldl_cons, andThen_pair_ok]
    have hc : (f c).2 = Res.ok := h c (List.mem_cons_self c rest)
    rw [hc]
    exact ih (t0 ++ (f c).1) (fun d hd => h d (List.mem_cons_of_mem c hd))

/-- With a rank function strictly decreasing from parent to pgrep child
(the finite acyclic process table), fuel above the root's rank makes the
synchronous sweep return ok. -/
theorem kpt_ok_of_rank (env : Env) (sig : Sig) (m : Nat → Nat)
    (hrank : ∀ p c kids, env.pgrep p = PgrepOut.output kids → c ∈ kids → m c < m p) :
    ∀ n p : Nat, m p < n →
      (killProcessTree env sig n (Target.pid p)).2 = Res.ok := by
  intro n
  induction n with
  | zero => intro p hp; exact absurd hp (Nat.not_lt_zero _)
  | succ n ih =>
    intro p hmp
    by_cases hp : p = 0
    · subst hp; rw [kpt_pid_zero]
    · cases hwin : env.win with
      | true => rw [kpt_win env sig n p hwin hp]
      | false =>
        cases hk : env.pgrep p with
        | throws => rw [kpt_pgrep_throws env sig n p hwin hp hk]
        | noOutput => rw [kpt_leaf env sig n p hwin hp hk]
        | output kids =>
          have hkids :
              ∀ c ∈ kids, (killProcessTree env sig n (Target.pid c)).2 = Res.ok :=
            fun c hc =>
              ih c (Nat.lt_of_lt_of_le (hrank p c kids hk hc) (Nat.lt_succ_iff.mp hmp))
          obtain ⟨t, hfold⟩ :=
            foldl_children_ok (fun c => killProcessTree env sig n (Target.pid c))
              kids [] hkids
          rw [kpt_node env sig n p kids t hwin hp hk hfold]

/-- Claim C8: when the parent→child relation of the process table is
acyclic and finite — witnessed by a rank function strictly decreasing
from each pid to its pgrep children — the recursive synchronous sweep
terminates: some fuel (rank of the root plus one suffices) makes the
entry point return ok for any target. -/
theorem C8_sync_sweep_terminates (env : Env) (sig : Sig) (target : Target)
    (m : Nat → Nat)
    (hrank : ∀ p c kids, env.pgrep p = PgrepOut.output kids → c ∈ kids → m c < m p) :
    ∃ fuel, (killProcessTree env sig fuel target).2 = Res.ok := by
  cases target with
  | pid n =>
    exact ⟨m n + 1, kpt_ok_of_rank env sig m hrank (m n + 1) n (Nat.lt_succ_self _)⟩
  | handle po =>
    match po with
    | none => exact ⟨1, by rw [kpt_handle_none]⟩
    | some n =>
      by_cases hn : n = 0
      · subst hn; exact ⟨1, by rw [kpt_handle_zero]⟩
      · refine ⟨m n + 1, ?_⟩
        rw [kpt_handle_some_eq_pid env sig (m n) n hn]
        exact kpt_ok_of_rank env sig m hrank (m n + 1) n (Nat.lt_succ_self _)

/-- Witness for C8: on the concrete tree environment (ranked by pid
distance from the leaves) the sweep from root 1 returns ok for some
fuel. -/
theorem C8_sync_sweep_terminates_witness :
    ∃ fuel, (killProcessTree treeEnv "SIGKILL" fuel (Target.pid 1)).2 = Res.ok :=
  C8_sync_sweep_terminates treeEnv "SIGKILL" (Target.pid 1) (fun p => 5 - p)
    (by
      intro p c kids hk hc
      simp only [treeEnv] at hk
      by_cases h1 : p = 1
      · subst h1
        simp at hk
        subst hk
        simp at hc
        rcases hc with rfl | rfl <;> decide
      · by_cases h2 : p = 2
        · subst h2
          simp at hk
          subst hk
          simp at hc
          subst hc
          decide
        · simp [h1, h2] at hk)

end ProcessUtils
